import Mathlib

/-!
Verification development for the CICLA bike comfort map sketch.

The program builds, once per frame, a scalar comfort field over a fixed
grid from four inputs (structural noise, a vertical temperature gradient,
a moving rain cloud, proximity to eco-pod stations), blended by a
weather-mode-dependent weight set and clamped to the unit interval.
Reactive cyclist agents sample the field, follow its finite-difference
gradient with a speed cap, keep a bounded FIFO trail, and respawn near a
random eco-pod when they leave the map or sit in low comfort.

The definitions below are a shallow embedding of `sketch.js`: the exact
rational arithmetic of the grid lookup is modelled over `ℚ`, while the
field synthesis and agent motion, which use `sqrt`, `exp`, `sin` and
`cos`, are modelled over `ℝ` with the corresponding Mathlib functions.
The noise function and all random draws are universally quantified
parameters.
-/

/-! ### p5.js numeric helpers used by the sketch -/

/-- p5 `constrain(n, low, high)`: clamp `n` into `[low, high]`. -/
def constrain {α : Type*} [LinearOrder α] (n low high : α) : α :=
  max (min n high) low

/-- p5 `map(value, start1, stop1, start2, stop2)`: linear remap without
clamping. -/
noncomputable def pmap (value start1 stop1 start2 stop2 : ℝ) : ℝ :=
  start2 + (stop2 - start2) * ((value - start1) / (stop1 - start1))

/-- p5 `dist(x1, y1, x2, y2)`: Euclidean distance. -/
noncomputable def pdist (x1 y1 x2 y2 : ℝ) : ℝ :=
  Real.sqrt ((x2 - x1) ^ 2 + (y2 - y1) ^ 2)

/-! ### Global configuration of the sketch -/

/-- Grid column count `cols = 70`. -/
def cols : ℕ := 70

/-- Grid row count `rows = 105`. -/
def rows : ℕ := 105

/-- Canvas width `createCanvas(600, 900)`. -/
def width : ℕ := 600

/-- Canvas height `createCanvas(600, 900)`. -/
def height : ℕ := 900

/-- Cell width `cellW = width / cols`. -/
def cellW : ℚ := (width : ℚ) / cols

/-- Cell height `cellH = height / rows`. -/
def cellH : ℚ := (height : ℚ) / rows

/-- The fixed eco-pod stations from `setup()`. -/
noncomputable def ecoPodsR : List (ℝ × ℝ) :=
  [((width : ℝ) * 0.3, (height : ℝ) * 0.25),
   ((width : ℝ) * 0.65, (height : ℝ) * 0.35),
   ((width : ℝ) * 0.4, (height : ℝ) * 0.6),
   ((width : ℝ) * 0.7, (height : ℝ) * 0.8)]

/-! ### MapAgent: per-cell field synthesis -/

/-- The weather mode set by keys 1/2/3. -/
inductive Weather
  | sunny
  | rain
  | heat
deriving DecidableEq

/-- Weight on the `(1 - temp)` term per weather mode (`MapAgent.act`). -/
def wTemp : Weather → ℝ
  | .sunny => 0.35
  | .rain => 0.15
  | .heat => 0.55

/-- Weight on the `eco` term per weather mode (`MapAgent.act`). -/
def wEco : Weather → ℝ
  | .sunny => 0.35
  | .rain => 0.45
  | .heat => 0.20

/-- Weight on the `(1 - rain)` term per weather mode (`MapAgent.act`). -/
def wRain : Weather → ℝ
  | .sunny => 0.20
  | .rain => 0.30
  | .heat => 0.15

/-- Weight on the `base` noise term per weather mode (`MapAgent.act`). -/
def wBase : Weather → ℝ
  | .sunny => 0.10
  | .rain => 0.10
  | .heat => 0.10

/-- The unclamped weather-dependent blend from `MapAgent.act`, with the
literal weights of the source. -/
noncomputable def blend (m : Weather) (base temp rain eco : ℝ) : ℝ :=
  match m with
  | .sunny => 0.35 * (1 - temp) + 0.35 * eco + 0.20 * (1 - rain) + 0.10 * base
  | .rain => 0.15 * (1 - temp) + 0.45 * eco + 0.30 * (1 - rain) + 0.10 * base
  | .heat => 0.55 * (1 - temp) + 0.20 * eco + 0.15 * (1 - rain) + 0.10 * base

/-- Continuous x-coordinate of the centre of grid column `i`:
`x = (i + 0.5) * cellW`. -/
noncomputable def cellX (w : ℝ) (c i : ℕ) : ℝ := ((i : ℝ) + 0.5) * (w / (c : ℝ))

/-- Continuous y-coordinate of the centre of grid row `j`:
`y = (j + 0.5) * cellH`. -/
noncomputable def cellY (h : ℝ) (r j : ℕ) : ℝ := ((j : ℝ) + 0.5) * (h / (r : ℝ))

/-- Temperature term `temp = map(j, 0, rows - 1, 1, 0)`. -/
noncomputable def tempAt (r j : ℕ) : ℝ := pmap (j : ℝ) 0 ((r : ℝ) - 1) 1 0

/-- Rain-cloud centre x: `width * (0.5 + 0.3 * sin(t * 0.7))` with
`t = frameCount * 0.01`. -/
noncomputable def rainCx (w : ℝ) (frame : ℕ) : ℝ :=
  w * (0.5 + 0.3 * Real.sin (((frame : ℝ) * 0.01) * 0.7))

/-- Rain-cloud centre y: `height * (0.5 + 0.2 * cos(t * 0.4))` with
`t = frameCount * 0.01`. -/
noncomputable def rainCy (h : ℝ) (frame : ℕ) : ℝ :=
  h * (0.5 + 0.2 * Real.cos (((frame : ℝ) * 0.01) * 0.4))

/-- Rain term `rain = exp(-sq(dist(x, y, rainCx, rainCy) / rainRadius))` with
`rainRadius = width * 0.45`. -/
noncomputable def rainAt (w h : ℝ) (frame : ℕ) (x y : ℝ) : ℝ :=
  Real.exp (-((pdist x y (rainCx w frame) (rainCy h frame) / (w * 0.45)) ^ 2))

/-- The minimum-distance search over the eco-pod list, starting from the
sentinel `minPod = 9999`. -/
noncomputable def minPodDist (pods : List (ℝ × ℝ)) (x y : ℝ) : ℝ :=
  pods.foldl (fun m p => if pdist x y p.1 p.2 < m then pdist x y p.1 p.2 else m) 9999

/-- Eco term `eco = constrain(map(minPod, 0, width * 0.4, 1, 0), 0, 1)`. -/
noncomputable def ecoAt (pods : List (ℝ × ℝ)) (w x y : ℝ) : ℝ :=
  constrain (pmap (minPodDist pods x y) 0 (w * 0.4) 1 0) 0 1

/-- The comfort value stored at `comfortMap[i][j]` by `MapAgent.act`, for
an arbitrary noise function, eco-pod list, grid dimensions and frame. -/
noncomputable def synthCell (m : Weather) (noise : ℝ → ℝ → ℝ) (pods : List (ℝ × ℝ))
    (c r : ℕ) (w h : ℝ) (frame i j : ℕ) : ℝ :=
  constrain
    (blend m (noise ((i : ℝ) * 0.08) ((j : ℝ) * 0.08)) (tempAt r j)
      (rainAt w h frame (cellX w c i) (cellY h r j))
      (ecoAt pods w (cellX w c i) (cellY h r j)))
    0 1

/-! ### Boundary-safe field lookup -/

/-- The source's `comfortAt(x, y)`: sentinel 0 outside the canvas,
otherwise the grid value at the floored, clamped cell index. -/
def comfortAt (grid : ℤ → ℤ → ℚ) (x y : ℚ) : ℚ :=
  if x < 0 ∨ (width : ℚ) ≤ x ∨ y < 0 ∨ (height : ℚ) ≤ y then 0
  else
    grid (constrain ⌊x / cellW⌋ 0 ((cols : ℤ) - 1))
      (constrain ⌊y / cellH⌋ 0 ((rows : ℤ) - 1))

/-- The spec's description of the lookup: in-bounds positions of the
half-open playfield rectangle `[0, width) × [0, height)` read the grid at
the floored, clamped index; every other position reads exactly 0. -/
def comfortAtSpec (grid : ℤ → ℤ → ℚ) (x y : ℚ) : ℚ :=
  if 0 ≤ x ∧ x < (width : ℚ) ∧ 0 ≤ y ∧ y < (height : ℚ) then
    grid (constrain ⌊x / cellW⌋ 0 ((cols : ℤ) - 1))
      (constrain ⌊y / cellH⌋ 0 ((rows : ℤ) - 1))
  else 0

/-! ### Helper lemmas about `constrain` -/

lemma constrain01_nonneg (c : ℝ) : 0 ≤ constrain c 0 1 :=
  le_max_right _ _

lemma constrain01_le_one (c : ℝ) : constrain c 0 1 ≤ 1 :=
  max_le (min_le_right _ _) zero_le_one

lemma constrain01_of_nonpos {c : ℝ} (h : c ≤ 0) : constrain c 0 1 = 0 := by
  unfold constrain
  rw [min_eq_left (h.trans zero_le_one), max_eq_right h]

lemma constrain01_of_mem {c : ℝ} (h0 : 0 ≤ c) (h1 : c ≤ 1) :
    constrain c 0 1 = c := by
  unfold constrain
  rw [min_eq_left h1, max_eq_left h0]

lemma constrain_mono {α : Type*} [LinearOrder α] {a b low high : α}
    (h : a ≤ b) : constrain a low high ≤ constrain b low high :=
  max_le_max (min_le_min h le_rfl) le_rfl

/-- C1: For every grid cell, frame, weather mode, noise function, eco-pod
set and grid geometry, the comfort value stored by the field-synthesis
pass lies in `[0, 1]` inclusive. -/
theorem synthCell_mem_unit_interval (m : Weather) (noise : ℝ → ℝ → ℝ)
    (pods : List (ℝ × ℝ)) (c r : ℕ) (w h : ℝ) (frame i j : ℕ) :
    0 ≤ synthCell m noise pods c r w h frame i j ∧
      synthCell m noise pods c r w h frame i j ≤ 1 :=
  ⟨constrain01_nonneg _, constrain01_le_one _⟩

/-- C7: For every weather mode, the blend weights applied to the
`(1 - temp)`, `eco`, `(1 - rain)` and `base` terms sum to exactly 1, and
the blend of `MapAgent.act` is exactly the weighted sum with these
weights. -/
theorem blend_weights_sum_to_one (m : Weather) :
    wTemp m + wEco m + wRain m + wBase m = 1 ∧
      ∀ base temp rain eco : ℝ,
        blend m base temp rain eco =
          wTemp m * (1 - temp) + wEco m * eco + wRain m * (1 - rain) +
            wBase m * base := by
  cases m <;>
    exact ⟨by norm_num [wTemp, wEco, wRain, wBase],
      fun base temp rain eco => by norm_num [wTemp, wEco, wRain, wBase, blend]⟩

/-- C9: On an empty eco-pod list the minimum-distance search returns the
sentinel 9999 unchanged, and the eco term used in the blend is 0 for
every cell position. -/
theorem ecoAt_empty_pods (x y : ℝ) :
    minPodDist [] x y = 9999 ∧ ecoAt [] (width : ℝ) x y = 0 := by
  constructor
  · rfl
  · unfold ecoAt
    rw [show minPodDist [] x y = 9999 from rfl]
    apply constrain01_of_nonpos
    unfold pmap
    norm_num [width]

/-- C2: `comfortAt` returns 0 at every position outside the half-open
playfield rectangle `[0, width) × [0, height)` and otherwise the grid
value at the floored, clamped cell index, i.e. it agrees with the spec's
description of the lookup everywhere. -/
theorem comfortAt_eq_spec (grid : ℤ → ℤ → ℚ) (x y : ℚ) :
    comfortAt grid x y = comfortAtSpec grid x y := by
  unfold comfortAt comfortAtSpec
  split_ifs with h1 h2 h3
  · obtain ⟨hx0, hxw, hy0, hyh⟩ := h2
    rcases h1 with h | h | h | h <;> linarith
  · rfl
  · rfl
  · exfalso
    push_neg at h1
    exact h3 ⟨h1.1, h1.2.1, h1.2.2.1, h1.2.2.2⟩

/-- C10: the out-of-bounds test of `comfortAt` is asymmetric: the right
and bottom edges (`x = width`, `y = height`) read the sentinel 0, while
the left and top edges (`x = 0`, `y = 0`) read the grid value. -/
theorem comfortAt_edge_asymmetry (grid : ℤ → ℤ → ℚ) (x y : ℚ) :
    comfortAt grid (width : ℚ) y = 0 ∧
      comfortAt grid x (height : ℚ) = 0 ∧
      (0 ≤ y → y < (height : ℚ) →
        comfortAt grid 0 y = grid 0 (constrain ⌊y / cellH⌋ 0 ((rows : ℤ) - 1))) ∧
      (0 ≤ x → x < (width : ℚ) →
        comfortAt grid x 0 = grid (constrain ⌊x / cellW⌋ 0 ((cols : ℤ) - 1)) 0) := by
  refine ⟨?_, ?_, ?_, ?_⟩
  · unfold comfortAt
    rw [if_pos (Or.inr (Or.inl le_rfl))]
  · unfold comfortAt
    rw [if_pos (Or.inr (Or.inr (Or.inr le_rfl)))]
  · intro hy0 hyh
    unfold comfortAt
    rw [if_neg (by push_neg; exact ⟨le_rfl, by norm_num [width], hy0, hyh⟩)]
    have hz : constrain ⌊(0 : ℚ) / cellW⌋ 0 ((cols : ℤ) - 1) = 0 := by
      norm_num [constrain, cols]
    rw [hz]
  · intro hx0 hxw
    unfold comfortAt
    rw [if_neg (by push_neg; exact ⟨hx0, hxw, le_rfl, by norm_num [height]⟩)]
    have hz : constrain ⌊(0 : ℚ) / cellH⌋ 0 ((rows : ℤ) - 1) = 0 := by
      norm_num [constrain, rows]
    rw [hz]

/-- Witness for C10 at the concrete grid `fun i j => i + j` and the
concrete in-bounds coordinates `x = y = 30`. -/
theorem comfortAt_edge_asymmetry_witness :
    comfortAt (fun i j => (i + j : ℚ)) (width : ℚ) 30 = 0 ∧
      comfortAt (fun i j => (i + j : ℚ)) 0 30 =
        constrain ⌊(30 : ℚ) / cellH⌋ 0 ((rows : ℤ) - 1) := by
  obtain ⟨h1, _, h3, _⟩ := comfortAt_edge_asymmetry (fun i j => (i + j : ℚ)) 30 30
  refine ⟨h1, ?_⟩
  rw [h3 (by norm_num) (by norm_num [height])]
  norm_num

/-! ### Cyclist trail handling -/

/-- The trail step of `Cyclist.act`: `trail.push(pos)` followed by
`if (trail.length > 80) trail.shift()`. -/
def pushTrail {α : Type*} (trail : List α) (pos : α) : List α :=
  let t := trail ++ [pos]
  if 80 < t.length then t.tail else t

lemma pushTrail_length_le {α : Type*} (trail : List α) (pos : α)
    (h : trail.length ≤ 80) : (pushTrail trail pos).length ≤ 80 := by
  simp only [pushTrail]
  split_ifs with hl
  · simpa using h
  · simp only [List.length_append, List.length_singleton] at hl ⊢
    omega

lemma foldl_pushTrail_small {α : Type*} :
    ∀ (ps acc : List α), acc.length + ps.length ≤ 80 →
      List.foldl pushTrail acc ps = acc ++ ps := by
  intro ps
  induction ps with
  | nil => intro acc _; simp
  | cons p ps ih =>
    intro acc h
    simp only [List.length_cons] at h
    have hstep : pushTrail acc p = acc ++ [p] := by
      simp only [pushTrail]
      rw [if_neg (by simp; omega)]
    rw [List.foldl_cons, hstep, ih (acc ++ [p]) (by simp; omega)]
    simp

lemma foldl_pushTrail_81 {α : Type*} (ps : List α) (h : ps.length = 81) :
    List.foldl pushTrail [] ps = ps.tail := by
  have hne : ps ≠ [] := by
    intro h'
    rw [h'] at h
    simp at h
  have e : ps.dropLast ++ [ps.getLast hne] = ps := List.dropLast_append_getLast hne
  have hlen : ps.dropLast.length = 80 := by
    rw [List.length_dropLast, h]
  calc List.foldl pushTrail [] ps
      = List.foldl pushTrail [] (ps.dropLast ++ [ps.getLast hne]) := by rw [e]
    _ = pushTrail (List.foldl pushTrail [] ps.dropLast) (ps.getLast hne) := by
        rw [List.foldl_append]
        rfl
    _ = pushTrail ps.dropLast (ps.getLast hne) := by
        rw [foldl_pushTrail_small ps.dropLast [] (by simp [hlen])]
        simp
    _ = (ps.dropLast ++ [ps.getLast hne]).tail := by
        simp only [pushTrail]
        rw [if_pos (by simp [hlen])]
    _ = ps.tail := by rw [e]

/-- C6: a trail of at most 80 entries never grows past 80 under the trail
step of `Cyclist.act`, and after 81 sequential appends starting from the
empty trail the result is exactly the last 80 entries: the oldest entry is
evicted FIFO, so the first appended entry is gone whenever it does not
reoccur later. -/
theorem trail_capacity_fifo {α : Type} (trail : List α) (pos : α)
    (ps : List α) :
    (trail.length ≤ 80 → (pushTrail trail pos).length ≤ 80) ∧
      (ps.length = 81 →
        List.foldl pushTrail [] ps = ps.tail ∧
          ∀ q, ps.head? = some q → q ∉ ps.tail →
            q ∉ List.foldl pushTrail [] ps) := by
  refine ⟨pushTrail_length_le trail pos, fun h => ⟨foldl_pushTrail_81 ps h, ?_⟩⟩
  intro q _ hq
  rw [foldl_pushTrail_81 ps h]
  exact hq

/-- Witness for C6: the invariant and the FIFO eviction evaluated on the
concrete trail `range 80` and append sequence `range 81`. -/
theorem trail_capacity_fifo_witness :
    (pushTrail (List.range 80) 80).length ≤ 80 ∧
      List.foldl pushTrail [] (List.range 81) = (List.range 81).tail ∧
      0 ∉ List.foldl pushTrail [] (List.range 81) := by
  have h := trail_capacity_fifo (List.range 80) 80 (List.range 81)
  refine ⟨h.1 (by simp), (h.2 (by simp)).1, (h.2 (by simp)).2 0 (by decide) (by decide)⟩

/-! ### Cyclist agents -/

/-- p5 `Vector.mag` for a 2D vector. -/
noncomputable def mag (v : ℝ × ℝ) : ℝ := Real.sqrt (v.1 ^ 2 + v.2 ^ 2)

/-- p5 `Vector.normalize`: multiply by `1 / mag` unless the magnitude is
zero. -/
noncomputable def normalizeV (v : ℝ × ℝ) : ℝ × ℝ :=
  if mag v = 0 then v else (v.1 * (1 / mag v), v.2 * (1 / mag v))

/-- The state of one cyclist: position, velocity, bounded trail, and the
comfort sampled at its centre by the last `perceive`. -/
structure Cyclist where
  x : ℝ
  y : ℝ
  vel : ℝ × ℝ
  trail : List (ℝ × ℝ)
  localComfort : ℝ

/-- The source's `Cyclist.decide`: blend the velocity with the normalized gradient
direction (substituting the random vector `rnd` when the gradient is
almost flat) and cap the speed at `maxSpeed = 2.0`. -/
noncomputable def Cyclist.decide (vel gradient rnd : ℝ × ℝ) : ℝ × ℝ :=
  let g := if mag gradient < 0.0005 then rnd else gradient
  let gn := normalizeV g
  let v := (0.75 * vel.1 + 0.25 * gn.1, 0.75 * vel.2 + 0.25 * gn.2)
  if 2 < mag v then ((normalizeV v).1 * 2, (normalizeV v).2 * 2) else v

/-- The source's `Cyclist.respawn`: place the cyclist near the chosen eco-pod at the
given random angle and radius, draw a fresh random velocity, and clear
the trail. The perceived `localComfort` is not touched. -/
noncomputable def Cyclist.respawn (c : Cyclist) (pod : ℝ × ℝ)
    (angle radius vx vy : ℝ) : Cyclist :=
  { x := pod.1 + Real.cos angle * radius
    y := pod.2 + Real.sin angle * radius
    vel := (vx, vy)
    trail := []
    localComfort := c.localComfort }

/-- The movement and trail step at the start of `Cyclist.act`. -/
noncomputable def Cyclist.move (c : Cyclist) : Cyclist :=
  { c with
    x := c.x + c.vel.1
    y := c.y + c.vel.2
    trail := pushTrail c.trail (c.x + c.vel.1, c.y + c.vel.2) }

/-- The respawn trigger of `Cyclist.act`: off-screen by more than the
margin of 40, or perceived comfort below 0.18. -/
def respawnCond (c : Cyclist) : Prop :=
  c.x < -40 ∨ (width : ℝ) + 40 < c.x ∨ c.y < -40 ∨ (height : ℝ) + 40 < c.y ∨
    c.localComfort < 0.18

lemma mag_pair (a b : ℝ) : mag (a, b) = Real.sqrt (a ^ 2 + b ^ 2) := rfl

lemma normalizeV_of_ne {v : ℝ × ℝ} (h : mag v ≠ 0) :
    normalizeV v = (v.1 * (1 / mag v), v.2 * (1 / mag v)) := if_neg h

lemma mag_rescale (a b : ℝ) (h : 2 < mag (a, b)) :
    mag (a * (1 / mag (a, b)) * 2, b * (1 / mag (a, b)) * 2) = 2 := by
  have hL : 0 < mag (a, b) := lt_trans (by norm_num) h
  have hS : mag (a, b) ^ 2 = a ^ 2 + b ^ 2 := Real.sq_sqrt (by positivity)
  have hne : mag (a, b) ≠ 0 := ne_of_gt hL
  rw [mag_pair]
  have harg : (a * (1 / mag (a, b)) * 2) ^ 2 + (b * (1 / mag (a, b)) * 2) ^ 2
      = 4 := by
    field_simp
    linarith [hS]
  rw [harg, show (4 : ℝ) = 2 ^ 2 by norm_num, Real.sqrt_sq (by norm_num)]

/-- C3: every velocity produced by `Cyclist.decide` — including when the
gradient is almost flat and an arbitrary random substitute direction is
used — has magnitude at most the fixed cap 2.0. -/
theorem decide_velocity_capped (vel gradient rnd : ℝ × ℝ) :
    mag (Cyclist.decide vel gradient rnd) ≤ 2 := by
  simp only [Cyclist.decide]
  set gn := normalizeV (if mag gradient < 0.0005 then rnd else gradient) with hgn
  set v : ℝ × ℝ := (0.75 * vel.1 + 0.25 * gn.1, 0.75 * vel.2 + 0.25 * gn.2)
    with hv
  split_ifs with h
  · rw [normalizeV_of_ne (ne_of_gt (lt_trans (by norm_num) h))]
    exact le_of_eq (mag_rescale (0.75 * vel.1 + 0.25 * gn.1)
      (0.75 * vel.2 + 0.25 * gn.2) h)
  · exact le_of_not_lt h

/-- C5 counterexample: a cyclist whose position after moving is exactly
`x = width + 40` (the boundary margin), in an otherwise comfortable state,
does NOT trigger a respawn: the source compares with strict `>`. -/
theorem boundary_margin_no_respawn :
    (Cyclist.move ⟨(width : ℝ) + 40, 100, (0, 0), [], 1⟩).x = (width : ℝ) + 40 ∧
      ¬ respawnCond (Cyclist.move ⟨(width : ℝ) + 40, 100, (0, 0), [], 1⟩) := by
  constructor
  · simp [Cyclist.move]
  · simp only [respawnCond, Cyclist.move]
    push_neg
    norm_num [width, height]

/-- C5 amended: the per-frame update triggers a respawn exactly when the
moved position is strictly beyond the margin; in particular, for a cyclist
inside the other margins with adequate comfort, the trigger holds iff
`x > width + 40`, so `x = width + 40` does not trigger. -/
theorem respawn_trigger_strict (c : Cyclist)
    (h1 : -40 ≤ (Cyclist.move c).x) (h2 : -40 ≤ (Cyclist.move c).y)
    (h3 : (Cyclist.move c).y ≤ (height : ℝ) + 40)
    (h4 : 0.18 ≤ (Cyclist.move c).localComfort) :
    respawnCond (Cyclist.move c) ↔ (width : ℝ) + 40 < (Cyclist.move c).x := by
  unfold respawnCond
  constructor
  · rintro (h | h | h | h | h)
    · linarith
    · exact h
    · linarith
    · linarith
    · linarith
  · intro h
    exact Or.inr (Or.inl h)

/-- Witness for C5's amended statement: a cyclist that moves to `x = 641`,
one unit beyond the margin, triggers the respawn condition. -/
theorem respawn_trigger_strict_witness :
    respawnCond (Cyclist.move ⟨641, 100, (0, 0), [], 1⟩) := by
  have h := respawn_trigger_strict ⟨641, 100, (0, 0), [], 1⟩
    (by norm_num [Cyclist.move]) (by norm_num [Cyclist.move])
    (by norm_num [Cyclist.move, height]) (by norm_num [Cyclist.move])
  rw [h]
  norm_num [Cyclist.move, width]

lemma unit_mul_bound {u r : ℝ} (hu1 : -1 ≤ u) (hu2 : u ≤ 1) (h0 : 0 ≤ r)
    (h60 : r ≤ 60) : -60 ≤ u * r ∧ u * r ≤ 60 := by
  constructor <;> nlinarith

/-- C4 counterexample: `Cyclist.respawn` does not touch the stored
`localComfort` sample, so for a cyclist whose respawn was triggered by low
comfort the respawn-triggering condition still holds immediately after the
respawn (it is only refreshed by the next `perceive`). -/
theorem respawn_cond_persists :
    ((width : ℝ) * 0.3, (height : ℝ) * 0.25) ∈ ecoPodsR ∧
      respawnCond ⟨700, 100, (0, 0), [], 0⟩ ∧
      respawnCond
        (Cyclist.respawn ⟨700, 100, (0, 0), [], 0⟩
          ((width : ℝ) * 0.3, (height : ℝ) * 0.25) 0 10 0 0) := by
  refine ⟨by simp [ecoPodsR], ?_, ?_⟩
  · unfold respawnCond
    norm_num
  · unfold respawnCond Cyclist.respawn
    norm_num

/-- C4 amended: after every respawn with admissible random draws, the
cyclist sits at Euclidean distance within `[10, 60]` of some eco-pod, the
trail is empty, both velocity components are in `[-1, 1]`, the
out-of-bounds part of the respawn trigger cannot hold, and the stored
comfort sample is carried over unchanged (so the comfort part of the
trigger may persist until the next `perceive`). -/
theorem respawn_spec (c : Cyclist) (pod : ℝ × ℝ) (angle radius vx vy : ℝ)
    (hpod : pod ∈ ecoPodsR) (hr1 : 10 ≤ radius) (hr2 : radius ≤ 60)
    (hvx1 : -1 ≤ vx) (hvx2 : vx ≤ 1) (hvy1 : -1 ≤ vy) (hvy2 : vy ≤ 1) :
    (∃ p ∈ ecoPodsR,
        10 ≤ pdist (Cyclist.respawn c pod angle radius vx vy).x
            (Cyclist.respawn c pod angle radius vx vy).y p.1 p.2 ∧
          pdist (Cyclist.respawn c pod angle radius vx vy).x
            (Cyclist.respawn c pod angle radius vx vy).y p.1 p.2 ≤ 60) ∧
      (Cyclist.respawn c pod angle radius vx vy).trail = [] ∧
      (-1 ≤ (Cyclist.respawn c pod angle radius vx vy).vel.1 ∧
        (Cyclist.respawn c pod angle radius vx vy).vel.1 ≤ 1 ∧
        -1 ≤ (Cyclist.respawn c pod angle radius vx vy).vel.2 ∧
        (Cyclist.respawn c pod angle radius vx vy).vel.2 ≤ 1) ∧
      ¬((Cyclist.respawn c pod angle radius vx vy).x < -40 ∨
          (width : ℝ) + 40 < (Cyclist.respawn c pod angle radius vx vy).x ∨
          (Cyclist.respawn c pod angle radius vx vy).y < -40 ∨
          (height : ℝ) + 40 < (Cyclist.respawn c pod angle radius vx vy).y) ∧
      (Cyclist.respawn c pod angle radius vx vy).localComfort =
        c.localComfort := by
  have hr0 : (0 : ℝ) ≤ radius := by linarith
  have hkey : pdist (Cyclist.respawn c pod angle radius vx vy).x
      (Cyclist.respawn c pod angle radius vx vy).y pod.1 pod.2 = radius := by
    show pdist (pod.1 + Real.cos angle * radius)
      (pod.2 + Real.sin angle * radius) pod.1 pod.2 = radius
    unfold pdist
    have harg : (pod.1 - (pod.1 + Real.cos angle * radius)) ^ 2 +
        (pod.2 - (pod.2 + Real.sin angle * radius)) ^ 2 = radius ^ 2 := by
      have hpyth := Real.sin_sq_add_cos_sq angle
      nlinarith [hpyth]
    rw [harg, Real.sqrt_sq hr0]
  have hcos := unit_mul_bound (Real.neg_one_le_cos angle)
    (Real.cos_le_one angle) hr0 hr2
  have hsin := unit_mul_bound (Real.neg_one_le_sin angle)
    (Real.sin_le_one angle) hr0 hr2
  refine ⟨⟨pod, hpod, by rw [hkey]; exact hr1, by rw [hkey]; exact hr2⟩,
    rfl, ⟨hvx1, hvx2, hvy1, hvy2⟩, ?_, rfl⟩
  push_neg
  have hx : (Cyclist.respawn c pod angle radius vx vy).x =
      pod.1 + Real.cos angle * radius := rfl
  have hy : (Cyclist.respawn c pod angle radius vx vy).y =
      pod.2 + Real.sin angle * radius := rfl
  rw [hx, hy]
  simp only [ecoPodsR, List.mem_cons, List.not_mem_nil, or_false] at hpod
  rcases hpod with h | h | h | h <;> rw [h] <;> norm_num [width, height] <;>
    exact ⟨by linarith [hcos.1], by linarith [hcos.2], by linarith [hsin.1],
      by linarith [hsin.2]⟩

/-- Witness for C4's amended statement at the first eco-pod, angle 0,
radius 10 and zero velocity. -/
theorem respawn_spec_witness :
    (Cyclist.respawn ⟨0, 0, (0, 0), [], 0⟩
        ((width : ℝ) * 0.3, (height : ℝ) * 0.25) 0 10 0 0).trail = [] ∧
      ¬(((width : ℝ) + 40 <
          (Cyclist.respawn ⟨0, 0, (0, 0), [], 0⟩
            ((width : ℝ) * 0.3, (height : ℝ) * 0.25) 0 10 0 0).x)) := by
  have h := respawn_spec ⟨0, 0, (0, 0), [], 0⟩
    ((width : ℝ) * 0.3, (height : ℝ) * 0.25) 0 10 0 0
    (by simp [ecoPodsR]) (by norm_num) (by norm_num) (by norm_num)
    (by norm_num) (by norm_num) (by norm_num)
  exact ⟨h.2.1, fun hc => h.2.2.2.1 (Or.inr (Or.inl hc))⟩

/-! ### The 4×4 single-pod scenario of the spec -/

lemma scenario_eco_zero (x y : ℝ)
    (hfar : 57600 ≤ (300 - x) ^ 2 + (450 - y) ^ 2)
    (hnear : (300 - x) ^ 2 + (450 - y) ^ 2 < 9999 ^ 2) :
    ecoAt [((300 : ℝ), 450)] 600 x y = 0 := by
  have hd : minPodDist [((300 : ℝ), 450)] x y = pdist x y 300 450 := by
    have hlt : pdist x y 300 450 < 9999 := by
      unfold pdist
      exact (Real.sqrt_lt' (by norm_num)).mpr hnear
    simp only [minPodDist, List.foldl_cons, List.foldl_nil]
    rw [if_pos hlt]
  have h240 : (240 : ℝ) ≤ pdist x y 300 450 := by
    unfold pdist
    exact (Real.le_sqrt (by norm_num) (by positivity)).mpr (by nlinarith)
  unfold ecoAt
  rw [hd]
  apply constrain01_of_nonpos
  unfold pmap
  have hdiv : (1 : ℝ) ≤ pdist x y 300 450 / 240 :=
    (le_div_iff₀ (by norm_num)).mpr (by linarith)
  nlinarith [hdiv]

lemma scenario_rain_eval (x y : ℝ) :
    rainAt 600 900 0 x y =
      Real.exp (-(((300 - x) ^ 2 + (630 - y) ^ 2) / 72900)) := by
  unfold rainAt rainCx rainCy pdist
  norm_num [Real.sin_zero, Real.cos_zero]
  rw [div_pow, Real.sq_sqrt (by positivity)]
  norm_num

lemma scenario_temp_one : tempAt 4 0 = 1 := by
  norm_num [tempAt, pmap]

lemma scenario_cell_row0 (i : ℕ) (x : ℝ) (hx : cellX 600 4 i = x)
    (hfar : 57600 ≤ (300 - x) ^ 2 + (450 - 112.5) ^ 2)
    (hnear : (300 - x) ^ 2 + (450 - 112.5) ^ 2 < 9999 ^ 2) :
    synthCell Weather.sunny (fun _ _ => 0) [((300 : ℝ), 450)] 4 4 600 900 0 i 0 =
      0.20 * (1 - Real.exp (-(((300 - x) ^ 2 + (630 - 112.5) ^ 2) / 72900))) := by
  have hy : cellY 900 4 0 = 112.5 := by norm_num [cellY]
  unfold synthCell
  rw [hx, hy, scenario_rain_eval, scenario_eco_zero x 112.5 hfar hnear,
    scenario_temp_one]
  have hr0 : 0 < Real.exp (-(((300 - x) ^ 2 + (630 - 112.5) ^ 2) / 72900)) :=
    Real.exp_pos _
  have hr1 : Real.exp (-(((300 - x) ^ 2 + (630 - 112.5) ^ 2) / 72900)) ≤ 1 :=
    Real.exp_le_one_iff.mpr (neg_nonpos.mpr (by positivity))
  have hb : blend Weather.sunny 0 1
      (Real.exp (-(((300 - x) ^ 2 + (630 - 112.5) ^ 2) / 72900))) 0 =
      0.20 * (1 - Real.exp (-(((300 - x) ^ 2 + (630 - 112.5) ^ 2) / 72900))) := by
    simp only [blend]
    ring
  rw [hb]
  exact constrain01_of_mem (by nlinarith) (by nlinarith)

/-- C8 counterexample: in the 4×4 grid scenario (single point-of-interest
at the centre, weather Sunny, noise constant 0, frame 0), cell (0,0) of
row 0 is strictly farther from the centre than cell (1,0), yet its
computed comfort is strictly larger: the moving rain cloud's term makes
comfort increase away from the centre, refuting row monotonicity. -/
theorem scenario_row_not_monotone :
    pdist (cellX 600 4 1) (cellY 900 4 0) 300 450 <
        pdist (cellX 600 4 0) (cellY 900 4 0) 300 450 ∧
      synthCell Weather.sunny (fun _ _ => 0) [((300 : ℝ), 450)] 4 4 600 900 0 1 0 <
        synthCell Weather.sunny (fun _ _ => 0) [((300 : ℝ), 450)] 4 4 600 900 0 0 0 := by
  have hx0 : cellX 600 4 0 = 75 := by norm_num [cellX]
  have hx1 : cellX 600 4 1 = 225 := by norm_num [cellX]
  have hy : cellY 900 4 0 = 112.5 := by norm_num [cellY]
  constructor
  · rw [hx0, hx1, hy]
    unfold pdist
    exact Real.sqrt_lt_sqrt (by positivity) (by norm_num)
  · rw [scenario_cell_row0 0 75 hx0 (by norm_num) (by norm_num),
      scenario_cell_row0 1 225 hx1 (by norm_num) (by norm_num)]
    have hmono : Real.exp (-((((300 : ℝ) - 75) ^ 2 + (630 - 112.5) ^ 2) / 72900)) <
        Real.exp (-((((300 : ℝ) - 225) ^ 2 + (630 - 112.5) ^ 2) / 72900)) :=
      Real.exp_lt_exp.mpr (by norm_num)
    linarith [hmono]

/-- C8 amended: in the same scenario, comfort is non-increasing moving
away from the centre within a single row whenever the rain intensity at
the two compared cells is equal; only the eco term then varies, and it
shrinks with the distance to the central point-of-interest. -/
theorem scenario_row_monotone_of_rain_eq (i1 i2 j : ℕ)
    (hd : minPodDist [((300 : ℝ), 450)] (cellX 600 4 i1) (cellY 900 4 j) ≤
      minPodDist [((300 : ℝ), 450)] (cellX 600 4 i2) (cellY 900 4 j))
    (hrain : rainAt 600 900 0 (cellX 600 4 i2) (cellY 900 4 j) =
      rainAt 600 900 0 (cellX 600 4 i1) (cellY 900 4 j)) :
    synthCell Weather.sunny (fun _ _ => 0) [((300 : ℝ), 450)] 4 4 600 900 0 i2 j ≤
      synthCell Weather.sunny (fun _ _ => 0) [((300 : ℝ), 450)] 4 4 600 900 0 i1 j := by
  unfold synthCell
  apply constrain_mono
  have heco : ecoAt [((300 : ℝ), 450)] 600 (cellX 600 4 i2) (cellY 900 4 j) ≤
      ecoAt [((300 : ℝ), 450)] 600 (cellX 600 4 i1) (cellY 900 4 j) := by
    unfold ecoAt
    apply constrain_mono
    unfold pmap
    have h240 : minPodDist [((300 : ℝ), 450)] (cellX 600 4 i1) (cellY 900 4 j) /
          (600 * 0.4) ≤
        minPodDist [((300 : ℝ), 450)] (cellX 600 4 i2) (cellY 900 4 j) /
          (600 * 0.4) :=
      (div_le_div_iff_of_pos_right (by norm_num)).mpr hd
    nlinarith [h240]
  rw [hrain]
  simp only [blend]
  linarith [heco]

/-- Witness for C8's amended statement: cells (1,1) and (2,1) are
symmetric about the centre, so their pod distances and rain intensities
agree; comfort moving from column 1 to column 2 is non-increasing. -/
theorem scenario_row_monotone_witness :
    synthCell Weather.sunny (fun _ _ => 0) [((300 : ℝ), 450)] 4 4 600 900 0 2 1 ≤
      synthCell Weather.sunny (fun _ _ => 0) [((300 : ℝ), 450)] 4 4 600 900 0 1 1 := by
  have hx1 : cellX 600 4 1 = 225 := by norm_num [cellX]
  have hx2 : cellX 600 4 2 = 375 := by norm_num [cellX]
  have hy : cellY 900 4 1 = 337.5 := by norm_num [cellY]
  have hpd : pdist 225 337.5 300 450 = pdist 375 337.5 300 450 := by
    unfold pdist
    norm_num
  have hd : minPodDist [((300 : ℝ), 450)] (cellX 600 4 1) (cellY 900 4 1) ≤
      minPodDist [((300 : ℝ), 450)] (cellX 600 4 2) (cellY 900 4 1) := by
    rw [hx1, hx2, hy]
    simp only [minPodDist, List.foldl_cons, List.foldl_nil]
    rw [hpd]
  have hrain : rainAt 600 900 0 (cellX 600 4 2) (cellY 900 4 1) =
      rainAt 600 900 0 (cellX 600 4 1) (cellY 900 4 1) := by
    rw [hx1, hx2, hy, scenario_rain_eval, scenario_rain_eval]
    norm_num
  exact scenario_row_monotone_of_rain_eq 1 2 1 hd hrain
